import Mathlib

/-!
Verification of the hotel-backend repository's email subsystem and
access-code generator. Go strings are modelled as `List Char`; the
process environment as an explicit `Env` record; network effects as the
`SendAction` value a dispatcher run would emit. Each definition is a
shallow embedding of the correspondingly named Go function in
`src/utils/admin_invite_email.go`, `src/utils/email_resend.go` or
`src/controllers/room_controller.go`.
-/

namespace Hotel

/-- Character class of Go's `unicode.IsSpace` (the White_Space property):
ASCII whitespace plus NEL, NBSP and the Unicode space separators. -/
def goIsSpace (c : Char) : Bool :=
  c == ' ' || c == '\t' || c == '\n' || c == '\x0b' || c == '\x0c' || c == '\r' ||
  c == '\u0085' || c == ' ' || c == ' ' ||
  (decide (' ' ≤ c) && decide (c ≤ ' ')) || c == ' ' || c == ' ' ||
  c == ' ' || c == ' ' || c == '　'

/-- Go `strings.TrimSpace`, right half: drop trailing whitespace. -/
def goTrimRight (s : List Char) : List Char :=
  (s.reverse.dropWhile goIsSpace).reverse

/-- Go `strings.TrimSpace`: drop leading and trailing whitespace. -/
def goTrimSpace (s : List Char) : List Char :=
  goTrimRight (s.dropWhile goIsSpace)

/-- Go `strings.ToLower`, restricted to the ASCII letters the repository's
configuration values use. -/
def goToLower (s : List Char) : List Char :=
  s.map Char.toLower

/-- Go `strings.EqualFold` on ASCII: equality after case folding. -/
def goEqualFold (a b : List Char) : Bool :=
  goToLower a == goToLower b

/-- Go `strings.HasPrefix pat s`-style test: does `s` start with `pat`? -/
def startsWithChars : List Char → List Char → Bool
  | _, [] => true
  | [], _ :: _ => false
  | c :: s, p :: ps => c == p && startsWithChars s ps

/-- Go `strings.TrimLeft s "/"`: drop every leading slash. -/
def trimLeftSlash (s : List Char) : List Char :=
  s.dropWhile (fun c => c == '/')

/-- Go `strings.Split raw ","`: the comma-separated fields of `raw`. -/
def splitComma : List Char → List (List Char)
  | [] => [[]]
  | ',' :: rest => [] :: splitComma rest
  | c :: rest =>
    match splitComma rest with
    | g :: gs => (c :: g) :: gs
    | [] => [[c]]

/-- Go `strings.ReplaceAll s "\r\n" " "`: replace each non-overlapping
carriage-return/line-feed pair, scanning left to right, with one space. -/
def replaceCRLFSpace : List Char → List Char
  | [] => []
  | [c] => [c]
  | c1 :: c2 :: rest =>
    if c1 = '\r' ∧ c2 = '\n' then ' ' :: replaceCRLFSpace rest
    else c1 :: replaceCRLFSpace (c2 :: rest)

/-- Does the string contain an adjacent carriage-return/line-feed pair? -/
def containsCRLF : List Char → Bool
  | [] => false
  | [_] => false
  | c1 :: c2 :: rest => (c1 == '\r' && c2 == '\n') || containsCRLF (c2 :: rest)

/-- The `safe` closure of `SendAdminInviteEmail`: trim surrounding
whitespace, then replace each embedded `\r\n` pair with a space. -/
def safe (s : List Char) : List Char :=
  replaceCRLFSpace (goTrimSpace s)

/-- Scheme coercion of `SendAdminInviteEmail`: a link without an
`http://` or `https://` scheme has its leading slashes stripped and
`https://` prepended; a link that already has a scheme is kept as is. -/
def coerceLink (link : List Char) : List Char :=
  if startsWithChars link "http://".data || startsWithChars link "https://".data then link
  else "https://".data ++ trimLeftSlash link

/-- Equivalent spec-side description of slash stripping, written
independently of `List.dropWhile` for comparison in C8. -/
def stripLeadingSlashes : List Char → List Char
  | '/' :: rest => stripLeadingSlashes rest
  | l => l

/-- The three sanitized values `SendAdminInviteEmail` interpolates into the
message bodies. -/
structure InviteFields where
  name : List Char
  role : List Char
  link : List Char
deriving DecidableEq, Repr

/-- Field preparation of `SendAdminInviteEmail`: `name`, `role` and
`inviteLink` pass through `safe`; the link is then scheme-coerced. -/
def inviteFields (name role inviteLink : List Char) : InviteFields :=
  { name := safe name
    role := safe role
    link := coerceLink (safe inviteLink) }

/-- The invite subject line. -/
def inviteSubject : List Char :=
  "You\x27re invited to Horizon Hotel System".data

/-- The plain-text invite body of `SendAdminInviteEmail`. -/
def invitePlainBody (f : InviteFields) : List Char :=
  "Hi ".data ++ f.name ++
  ",\n\nYou have been invited to join Horizon Hotel as a ".data ++ f.role ++
  ".\nPlease set your password using the link below:\n".data ++ f.link ++
  "\n\nIf you did not expect this invitation, you can ignore this email.\n".data

/-- The HTML invite body of `SendAdminInviteEmail`. -/
def inviteHtmlBody (f : InviteFields) : List Char :=
  "<!doctype html>\n<html>\n<head>\n<meta charset=\"utf-8\">\n<title>Invitation</title>\n<style>\nbody \x7b background:#f5f7fb; font-family:Arial, Helvetica, sans-serif; color:#222; \x7d\n.container \x7b max-width:640px; margin:20px auto; \x7d\n.card \x7b background:#fff; border:1px solid #e6eef6; padding:24px; border-radius:8px; \x7d\n.btn \x7b display:inline-block; padding:12px 20px; background:#0b74ff; color:#fff; text-decoration:none; border-radius:6px; margin-top:16px; \x7d\n</style>\n</head>\n<body>\n<div class=\"container\">\n  <div class=\"card\">\n    <h2>You\x27re invited</h2>\n    <p>Hi ".data ++ f.name ++
  ",</p>\n    <p>You have been invited to join Horizon Hotel as a <strong>".data ++ f.role ++
  "</strong>.</p>\n    <p>Click the button below to set your password.</p>\n    <a class=\"btn\" href=\"".data ++ f.link ++
  "\" target=\"_blank\">Set up my account</a>\n    <p>If you did not expect this invitation, you can ignore this email.</p>\n  </div>\n</div>\n</body>\n</html>".data

/-- The environment variables `email_resend.go` reads, one field per
variable, modelling `os.Getenv`. -/
structure Env where
  RESEND_API_KEY : List Char
  RESEND_FROM_NAME : List Char
  SMTP_FROM_NAME : List Char
  RESEND_FROM_EMAIL : List Char
  SMTP_USERNAME : List Char
  RESEND_FROM_EMAILS : List Char
  SMTP_HOST : List Char
  SMTP_PORT : List Char
  SMTP_PASSWORD : List Char
deriving DecidableEq, Repr

/-- `resendFromName`: display name from `RESEND_FROM_NAME`, falling back to
`SMTP_FROM_NAME`, falling back to the literal `Hotel`. -/
def resendFromName (env : Env) : List Char :=
  let name := goTrimSpace env.RESEND_FROM_NAME
  let name := if name = [] then goTrimSpace env.SMTP_FROM_NAME else name
  if name = [] then "Hotel".data else name

/-- `resendDefaultFrom`: default sender from `RESEND_FROM_EMAIL`, falling
back to `SMTP_USERNAME`. -/
def resendDefaultFrom (env : Env) : List Char :=
  let value := goTrimSpace env.RESEND_FROM_EMAIL
  if value = [] then goTrimSpace env.SMTP_USERNAME else value

/-- The non-blank lowercased entries parsed out of `RESEND_FROM_EMAILS`
inside `parseAllowedFromEmails`. -/
def explicitAllowEntries (env : Env) : List (List Char) :=
  ((splitComma (goTrimSpace env.RESEND_FROM_EMAILS)).map
      (fun part => goToLower (goTrimSpace part))).filter (fun e => !e.isEmpty)

/-- `parseAllowedFromEmails`: the allow-list; when no explicit entry is
configured it falls back to the singleton default sender, when that too is
blank the list is empty. Membership in the Go map is list membership here
(every entry is already lowercased). -/
def parseAllowedFromEmails (env : Env) : List (List Char) :=
  let allowed := explicitAllowEntries env
  if allowed = [] then
    let defEmail := goToLower (goTrimSpace (resendDefaultFrom env))
    if defEmail = [] then [] else [defEmail]
  else allowed

/-- The failures of `email_resend.go`, one constructor per `errors.New` /
`fmt.Errorf` site reached before a network call. -/
inductive SendError
  | emptyRecipients
  | senderNotConfigured
  | senderNotAllowed (value : List Char)
  | senderMismatch (value : List Char)
deriving DecidableEq, Repr

/-- The value the two assignments to `value` in `resolveFromEmail` produce:
the trimmed request, or the default sender when that is blank. -/
def resolvedValue (env : Env) (requested : List Char) : List Char :=
  let value := goTrimSpace requested
  if value = [] then resendDefaultFrom env else value

/-- `resolveFromEmail`: substitute the default for a blank request, fail
when nothing is configured, then enforce the allow-list case-insensitively. -/
def resolveFromEmail (env : Env) (requested : List Char) : Except SendError (List Char) :=
  let value := resolvedValue env requested
  if value = [] then .error .senderNotConfigured
  else
    let allowed := parseAllowedFromEmails env
    if 0 < allowed.length then
      if allowed.contains (goToLower value) then .ok value
      else .error (.senderNotAllowed value)
    else .ok value

/-- The outward-visible action a successful dispatcher run performs:
the mock log line, one hosted-API POST, or one SMTP submission. -/
inductive SendAction
  | mock
  | apiRequest (fromField : List Char) (toAddrs : List (List Char))
      (subject html text : List Char)
  | smtpRequest (addr sender : List Char) (toAddrs : List (List Char)) (msg : List Char)
deriving DecidableEq, Repr

/-- The MIME multipart/alternative document `sendSMTPEmail` assembles. -/
def buildMimeMessage (fromHeader : List Char) (toAddrs : List (List Char))
    (subject htmlBody textBody : List Char) : List Char :=
  let boundary := "----=_EMAIL_BOUNDARY".data
  "From: ".data ++ fromHeader ++ "\r\n".data ++
  "To: ".data ++ (List.intercalate ",".data toAddrs) ++ "\r\n".data ++
  "Subject: ".data ++ subject ++ "\r\n".data ++
  "MIME-Version: 1.0\r\n".data ++
  "Content-Type: multipart/alternative; boundary=\"".data ++ boundary ++ "\"\r\n\r\n".data ++
  (if textBody = [] then [] else
    "--".data ++ boundary ++ "\r\n".data ++
    "Content-Type: text/plain; charset=utf-8\r\n\r\n".data ++ textBody ++ "\r\n".data) ++
  (if htmlBody = [] then [] else
    "--".data ++ boundary ++ "\r\n".data ++
    "Content-Type: text/html; charset=utf-8\r\n\r\n".data ++ htmlBody ++ "\r\n".data) ++
  "--".data ++ boundary ++ "--\r\n".data

/-- `sendSMTPEmail`: mock when any of host/port/username/password is blank;
otherwise fail fast on an empty recipient list, default a blank sender to
the SMTP username, require a case-insensitive sender/username match, and
submit the assembled MIME document via `smtp.SendMail` with the username
as envelope sender. -/
def sendSMTPEmail (env : Env) (toAddrs : List (List Char))
    (subject htmlBody textBody fromEmail fromName : List Char) :
    Except SendError SendAction :=
  let smtpHost := goTrimSpace env.SMTP_HOST
  let smtpPort := goTrimSpace env.SMTP_PORT
  let smtpUser := goTrimSpace env.SMTP_USERNAME
  let smtpPass := goTrimSpace env.SMTP_PASSWORD
  if smtpHost = [] ∨ smtpPort = [] ∨ smtpUser = [] ∨ smtpPass = [] then .ok .mock
  else if toAddrs = [] then .error .emptyRecipients
  else
    let fromEmail := goTrimSpace fromEmail
    let fromEmail := if fromEmail = [] then smtpUser else fromEmail
    if ¬ goToLower fromEmail = goToLower smtpUser then .error (.senderMismatch fromEmail)
    else
      let fromName := goTrimSpace fromName
      let fromName := if fromName = [] then resendFromName env else fromName
      let fromHeader :=
        if ¬ fromName = [] then fromName ++ " <".data ++ fromEmail ++ ">".data
        else fromEmail
      .ok (.smtpRequest (smtpHost ++ ":".data ++ smtpPort) smtpUser toAddrs
        (buildMimeMessage fromHeader toAddrs subject htmlBody textBody))

/-- `sendResendEmail`: with no `RESEND_API_KEY` fall through to the SMTP
path; otherwise fail fast on an empty recipient list, resolve the sender,
and issue the hosted-API request. -/
def sendResendEmail (env : Env) (toAddrs : List (List Char))
    (subject htmlBody textBody fromEmail fromName : List Char) :
    Except SendError SendAction :=
  let apiKey := goTrimSpace env.RESEND_API_KEY
  if apiKey = [] then sendSMTPEmail env toAddrs subject htmlBody textBody fromEmail fromName
  else if toAddrs = [] then .error .emptyRecipients
  else
    match resolveFromEmail env fromEmail with
    | .error e => .error e
    | .ok fromEmailR =>
      let fromName := goTrimSpace fromName
      let fromName := if fromName = [] then resendFromName env else fromName
      let fromField :=
        if ¬ fromName = [] then fromName ++ " <".data ++ fromEmailR ++ ">".data
        else fromEmailR
      .ok (.apiRequest fromField toAddrs subject htmlBody textBody)

/-- Is the full SMTP configuration (host, port, username, password)
present after trimming? -/
def smtpConfigComplete (env : Env) : Bool :=
  !(goTrimSpace env.SMTP_HOST).isEmpty && !(goTrimSpace env.SMTP_PORT).isEmpty &&
  !(goTrimSpace env.SMTP_USERNAME).isEmpty && !(goTrimSpace env.SMTP_PASSWORD).isEmpty

/-- Go `fmt.Sprintf "%06d" n` for a non-negative value: the decimal
rendering left-padded with zeros to width six. -/
def pad6 (n : Nat) : List Char :=
  let s := (Nat.repr n).data
  List.replicate (6 - s.length) '0' ++ s

/-- Result of `generateUniqueAccessCode`: a fresh code, or the
`ExhaustedAttempts` failure after every attempt collided. -/
inductive CodeGenResult
  | ok (code : List Char)
  | exhausted
deriving DecidableEq, Repr

/-- The attempt loop of `generateUniqueAccessCode`: `samples i` is the
random integer drawn on attempt `i` (the code draws it from
`crypto/rand` in `[0, 1000000)`), `count` the room store's count of rooms
holding a given access code. -/
def genLoop (count : List Char → Nat) (samples : Nat → Nat) : Nat → Nat → CodeGenResult
  | _, 0 => .exhausted
  | i, fuel + 1 =>
    let code := pad6 (samples i)
    if count code = 0 then .ok code else genLoop count samples (i + 1) fuel

/-- `generateUniqueAccessCode`: up to five attempts starting at index 0. -/
def generateUniqueAccessCode (count : List Char → Nat) (samples : Nat → Nat) :
    CodeGenResult :=
  genLoop count samples 0 5

/-- The room fields the embedded controller logic touches. -/
structure Room where
  roomNumber : List Char
  status : List Char
  accessCode : List Char
deriving DecidableEq, Repr

/-- Outcome of a handler step: a value, or the 500 response issued when
code generation fails. -/
inductive HandlerOutcome (α : Type)
  | ok (a : α)
  | serverError
deriving DecidableEq, Repr

/-- The access-code block of `CreateRoom` (room_controller.go lines 93-104):
generate a code exactly when the supplied one is blank after trimming;
`gen` is what `generateUniqueAccessCode` would return if invoked. -/
def createRoomAccessCode (room : Room) (gen : CodeGenResult) : HandlerOutcome Room :=
  if goTrimSpace room.accessCode = [] then
    match gen with
    | .ok code => .ok { room with accessCode := code }
    | .exhausted => .serverError
  else .ok room

/-- An update payload: the bound JSON object of `UpdateRoom`, keys mapped
to the `%v` rendering of their values. -/
def Payload : Type := List (List Char × List Char)

/-- Go map lookup on a payload. -/
def lookupKey : List (List Char × List Char) → List Char → Option (List Char)
  | [], _ => none
  | e :: rest, k => if e.1 = k then some e.2 else lookupKey rest k

/-- Go map `delete` on a payload. -/
def removeKey : List (List Char × List Char) → List Char → List (List Char × List Char)
  | [], _ => []
  | e :: rest, k => if e.1 = k then removeKey rest k else e :: removeKey rest k

/-- Go map assignment on a payload. -/
def setKey (m : List (List Char × List Char)) (k v : List Char) :
    List (List Char × List Char) :=
  removeKey m k ++ [(k, v)]

/-- The payload scrub of `UpdateRoom` (room_controller.go lines 149-158):
drop the four protected keys, then rename the `accessCode` alias to
`access_code`. -/
def scrubPayload (raw : List (List Char × List Char)) :
    List (List Char × List Char) :=
  let d := removeKey (removeKey (removeKey (removeKey raw "id".data)
    "created_at".data) "updated_at".data) "deleted_at".data
  match lookupKey d "accessCode".data with
  | some v => removeKey (setKey d "access_code".data v) "accessCode".data
  | none => d

/-- Payload preparation of `UpdateRoom` (room_controller.go lines 149-183):
scrub the payload, and on a case-insensitive Cleaning-to-Available status
transition write a freshly generated access code into it. -/
def updateRoomPrep (existing : Room) (raw : List (List Char × List Char))
    (gen : CodeGenResult) : HandlerOutcome (List (List Char × List Char)) :=
  let d := scrubPayload raw
  match lookupKey d "status".data with
  | some statusStr =>
    if goEqualFold existing.status "Cleaning".data &&
        goEqualFold statusStr "Available".data then
      match gen with
      | .ok code => .ok (setKey d "access_code".data code)
      | .exhausted => .serverError
    else .ok d
  | none => .ok d

/-- Does the status-transition trigger of `UpdateRoom` fire on this
payload against this stored room? -/
def statusTriggered (existing : Room) (raw : List (List Char × List Char)) : Bool :=
  match lookupKey raw "status".data with
  | some s =>
    goEqualFold existing.status "Cleaning".data && goEqualFold s "Available".data
  | none => false

/-- A sanitized interpolated segment: it contains no adjacent
carriage-return/line-feed pair and no surrounding whitespace. -/
def segmentSane (seg : List Char) : Prop :=
  containsCRLF seg = false
  ∧ (∀ c, seg.head? = some c → goIsSpace c = false)
  ∧ (∀ c, seg.getLast? = some c → goIsSpace c = false)

/-- An environment with nothing configured. -/
def envNone : Env := ⟨[], [], [], [], [], [], [], [], []⟩

/-- An environment with only the hosted-API credential configured. -/
def envApiOnly : Env := { envNone with RESEND_API_KEY := "rk_test".data }

/-- An environment with only an explicit allow-list configured. -/
def envAllowList : Env := { envNone with RESEND_FROM_EMAILS := "allowed@example.com".data }

/-- An environment with only a default sender address configured. -/
def envDefaultOnly : Env := { envNone with RESEND_FROM_EMAIL := "owner@example.com".data }

/-- An environment with a full SMTP configuration. -/
def envSmtp : Env := { envNone with
  SMTP_HOST := "smtp.example.com".data
  SMTP_PORT := "587".data
  SMTP_USERNAME := "Sender@example.com".data
  SMTP_PASSWORD := "secret".data }

/-- A stored room in the Cleaning state holding access code 000001. -/
def roomCleaning : Room := ⟨"101".data, "Cleaning".data, "000001".data⟩

/-- An update payload naming only a status change to Available. -/
def payloadAvailable : List (List Char × List Char) :=
  [("status".data, "Available".data)]

/-- Stored column values of the room the C10 counterexample updates. -/
def rowStored : List Char → List Char :=
  fun col => if col = "access_code".data then "000001".data else "stored".data

/-- The column application of `config.DB.Updates` with a map argument:
each column named in the payload takes its payload value, every other
column keeps its stored value (`row` is the stored record, column by
column). -/
def applyUpdates (row : List Char → List Char) (m : List (List Char × List Char)) :
    List Char → List Char :=
  fun col =>
    match lookupKey m col with
    | some v => v
    | none => row col

end Hotel

deriving instance DecidableEq for Except

namespace Hotel

/-! ## Helper lemmas for the access-code generator -/

/-- The attempt loop exhausts exactly when every draw within the fuel
budget collides with a stored code. -/
theorem genLoop_exhausted_iff (count : List Char → Nat) (samples : Nat → Nat) :
    ∀ fuel i, genLoop count samples i fuel = .exhausted ↔
      ∀ j, j < fuel → count (pad6 (samples (i + j))) ≠ 0 := by
  intro fuel
  induction fuel with
  | zero => intro i; simp [genLoop]
  | succ fuel ih =>
    intro i
    simp only [genLoop]
    by_cases h : count (pad6 (samples i)) = 0
    · rw [if_pos h]
      simp only [reduceCtorEq, false_iff]
      push_neg
      exact ⟨0, by omega, by simpa using h⟩
    · rw [if_neg h, ih (i + 1)]
      constructor
      · intro hall j hj
        match j with
        | 0 => simpa using h
        | k + 1 =>
          have hk := hall k (by omega)
          have e : i + 1 + k = i + (k + 1) := by omega
          rwa [e] at hk
      · intro hall j hj
        have hk := hall (j + 1) (by omega)
        have e : i + (j + 1) = i + 1 + j := by omega
        rwa [e] at hk

/-- A successful run of the attempt loop returns the first drawn code the
store does not already hold. -/
theorem genLoop_ok (count : List Char → Nat) (samples : Nat → Nat) :
    ∀ fuel i c, genLoop count samples i fuel = .ok c →
      ∃ j, j < fuel ∧ c = pad6 (samples (i + j)) ∧ count c = 0 ∧
        ∀ k, k < j → count (pad6 (samples (i + k))) ≠ 0 := by
  intro fuel
  induction fuel with
  | zero => intro i c h; simp [genLoop] at h
  | succ fuel ih =>
    intro i c h
    simp only [genLoop] at h
    by_cases hc : count (pad6 (samples i)) = 0
    · rw [if_pos hc] at h
      have hcode : pad6 (samples i) = c := by
        cases h; rfl
      refine ⟨0, by omega, by simpa using hcode.symm, by rwa [hcode] at hc, ?_⟩
      intro k hk; omega
    · rw [if_neg hc] at h
      obtain ⟨j, hj, hcj, hcnt, hmin⟩ := ih (i + 1) c h
      refine ⟨j + 1, by omega, ?_, hcnt, ?_⟩
      · have e : i + (j + 1) = i + 1 + j := by omega
        rwa [e]
      · intro k hk
        match k with
        | 0 => simpa using hc
        | k' + 1 =>
          have hm := hmin k' (by omega)
          have e : i + 1 + k' = i + (k' + 1) := by omega
          rwa [e] at hm

/-- Zero-padding to width six yields exactly six characters for every
value the generator can draw. -/
theorem pad6_length (n : Nat) (h : n < 1000000) : (pad6 n).length = 6 := by
  have hle : (Nat.repr n).length ≤ 6 :=
    Nat.repr_length n 6 (by omega) (by norm_num; omega)
  have he : (Nat.repr n).data.length = (Nat.repr n).length := rfl
  simp only [pad6, List.length_append, List.length_replicate]
  omega

/-- C1: `generateUniqueAccessCode` draws an integer in `[0, 1000000)` per
attempt (`samples`, the stream `crypto/rand` supplies), zero-pads it to a
6-digit decimal string, and checks the room store's count of that code; it
makes at most 5 attempts, returns the first drawn code with zero matches,
and fails with the exhausted-attempts error exactly when all 5 draws
collide. -/
theorem C1_generateUniqueAccessCode_contract (count : List Char → Nat)
    (samples : Nat → Nat) :
    (generateUniqueAccessCode count samples = CodeGenResult.exhausted ↔
      ∀ i, i < 5 → count (pad6 (samples i)) ≠ 0)
    ∧ (∀ c, generateUniqueAccessCode count samples = CodeGenResult.ok c →
        ∃ i, i < 5 ∧ c = pad6 (samples i) ∧ count c = 0 ∧
          ∀ j, j < i → count (pad6 (samples j)) ≠ 0)
    ∧ (∀ n, n < 1000000 → (pad6 n).length = 6) := by
  refine ⟨?_, ?_, fun n hn => pad6_length n hn⟩
  · have h := genLoop_exhausted_iff count samples 5 0
    simpa using h
  · intro c hc
    have h := genLoop_ok count samples 5 0 c hc
    simpa using h

/-! ## Helper lemmas for the link coercion -/

/-- A string formed by prepending a pattern starts with that pattern. -/
theorem startsWithChars_append_self (p z : List Char) :
    startsWithChars (p ++ z) p = true := by
  induction p with
  | nil => cases z <;> rfl
  | cons c p ih => simpa [startsWithChars] using ih

/-- Dropping leading slashes agrees with the spec-side description. -/
theorem trimLeftSlash_eq_strip (l : List Char) :
    trimLeftSlash l = stripLeadingSlashes l := by
  induction l with
  | nil => rfl
  | cons c t ih =>
    by_cases h : c = '/'
    · subst h
      simpa [trimLeftSlash, List.dropWhile] using ih
    · have hb : (c == '/') = false := by simp [h]
      have h1 : trimLeftSlash (c :: t) = c :: t := by
        simp [trimLeftSlash, List.dropWhile_cons, hb]
      have h2 : stripLeadingSlashes (c :: t) = c :: t := by
        unfold stripLeadingSlashes
        split
        · simp_all
        · rfl
      rw [h1, h2]

/-- C8: a supplied invite link lacking an `http://` or `https://` scheme is
composed as the link with leading slashes stripped and a single `https://`
prepended; a link already carrying a scheme is left unchanged. The third
conjunct ties the coercion to the composed message's link field. -/
theorem C8_link_scheme_coercion (link : List Char) :
    (startsWithChars link "http://".data = false →
      startsWithChars link "https://".data = false →
      coerceLink link = "https://".data ++ stripLeadingSlashes link ∧
      startsWithChars (coerceLink link) "https://".data = true)
    ∧ (startsWithChars link "http://".data = true ∨
        startsWithChars link "https://".data = true →
      coerceLink link = link)
    ∧ (∀ name role, (inviteFields name role link).link = coerceLink (safe link)) := by
  refine ⟨?_, ?_, fun name role => rfl⟩
  · intro h1 h2
    have hc : coerceLink link = "https://".data ++ trimLeftSlash link := by
      simp [coerceLink, h1, h2]
    constructor
    · rw [hc, trimLeftSlash_eq_strip]
    · rw [hc]
      exact startsWithChars_append_self _ _
  · intro h
    rcases h with h | h <;> simp [coerceLink, h]

/-! ## Helper lemmas for the sanitizer -/

/-- The first character surviving `dropWhile` falsifies the predicate. -/
theorem dropWhile_head_not (p : Char → Bool) :
    ∀ (l : List Char) c t, l.dropWhile p = c :: t → p c = false := by
  intro l
  induction l with
  | nil => intro c t h; simp at h
  | cons a l ih =>
    intro c t h
    by_cases ha : p a
    · rw [List.dropWhile_cons_of_pos ha] at h
      exact ih c t h
    · rw [List.dropWhile_cons_of_neg ha] at h
      cases h
      simpa using ha

/-- Every list splits as dropped part plus `dropWhile` remainder. -/
theorem dropWhile_decomp (p : Char → Bool) :
    ∀ l : List Char, ∃ u, l = u ++ l.dropWhile p := by
  intro l
  induction l with
  | nil => exact ⟨[], rfl⟩
  | cons a l ih =>
    by_cases ha : p a
    · obtain ⟨u, hu⟩ := ih
      refine ⟨a :: u, ?_⟩
      rw [List.dropWhile_cons_of_pos ha]
      simpa using hu
    · exact ⟨[], by rw [List.dropWhile_cons_of_neg ha]; rfl⟩

/-- A character Go treats as non-whitespace is neither CR nor LF. -/
theorem not_cr_lf_of_not_space (c : Char) (h : goIsSpace c = false) :
    c ≠ '\r' ∧ c ≠ '\n' := by
  constructor <;> rintro rfl <;> exact absurd h (by decide)

/-- The replacer maps a nonempty string to a nonempty string. -/
theorem replaceCRLFSpace_ne_nil :
    ∀ l : List Char, l ≠ [] → replaceCRLFSpace l ≠ [] := by
  intro l hl
  cases l with
  | nil => exact absurd rfl hl
  | cons c1 t =>
    cases t with
    | nil => simp [replaceCRLFSpace]
    | cons c2 rest =>
      by_cases h12 : c1 = '\r' ∧ c2 = '\n'
      · rw [replaceCRLFSpace, if_pos h12]; simp
      · rw [replaceCRLFSpace, if_neg h12]; simp

/-- Prepending a character other than CR cannot create a CR-LF pair. -/
theorem containsCRLF_cons_of_ne (c : Char) (l : List Char) (hc : c ≠ '\r') :
    containsCRLF (c :: l) = containsCRLF l := by
  cases l with
  | nil => simp [containsCRLF]
  | cons b r =>
    have hb : (c == '\r') = false := by simp [hc]
    simp [containsCRLF, hb]

/-- The replacer keeps a non-LF head character in place. -/
theorem replaceCRLFSpace_cons_of_ne (c : Char) (t : List Char) (hc : c ≠ '\r') :
    replaceCRLFSpace (c :: t) = c :: replaceCRLFSpace t := by
  cases t with
  | nil => rfl
  | cons c2 r => rw [replaceCRLFSpace, if_neg (by intro h; exact hc h.1)]

/-- The replacer's output cannot start with LF unless its input did. -/
theorem replaceCRLFSpace_head_ne_lf (c : Char) (rest : List Char) (hc : c ≠ '\n') :
    ∀ t, replaceCRLFSpace (c :: rest) ≠ '\n' :: t := by
  intro t h
  cases rest with
  | nil =>
    simp [replaceCRLFSpace] at h
    exact hc h.1
  | cons c2 r =>
    by_cases h12 : c = '\r' ∧ c2 = '\n'
    · rw [replaceCRLFSpace, if_pos h12] at h
      simp at h
    · rw [replaceCRLFSpace, if_neg h12] at h
      simp at h
      exact hc h.1

/-- Prepending CR to a string not starting with LF creates no CR-LF pair. -/
theorem containsCRLF_cons_cr (l : List Char) (h : ∀ t, l ≠ '\n' :: t) :
    containsCRLF ('\r' :: l) = containsCRLF l := by
  cases l with
  | nil => simp [containsCRLF]
  | cons b r =>
    have hb : (b == '\n') = false := by
      simp only [beq_eq_false_iff_ne, ne_eq]
      intro hbe
      exact h r (by rw [hbe])
    simp [containsCRLF, hb]

/-- The replacer's output holds no adjacent CR-LF pair. -/
theorem containsCRLF_replaceCRLFSpace (l : List Char) :
    containsCRLF (replaceCRLFSpace l) = false := by
  induction l using replaceCRLFSpace.induct with
  | case1 => rfl
  | case2 c => rfl
  | case3 c1 c2 rest h12 ih =>
    rw [replaceCRLFSpace, if_pos h12]
    rw [containsCRLF_cons_of_ne ' ' _ (by decide)]
    exact ih
  | case4 c1 c2 rest h12 ih =>
    rw [replaceCRLFSpace, if_neg h12]
    by_cases hcr : c1 = '\r'
    · subst hcr
      have hc2 : c2 ≠ '\n' := fun he => h12 ⟨rfl, he⟩
      rw [containsCRLF_cons_cr _ (replaceCRLFSpace_head_ne_lf c2 rest hc2)]
      exact ih
    · rw [containsCRLF_cons_of_ne c1 _ hcr]
      exact ih

/-- The replacer keeps the last character when it is not LF. -/
theorem replaceCRLFSpace_getLast (l : List Char) (hl : l.getLast? ≠ some '\n') :
    (replaceCRLFSpace l).getLast? = l.getLast? := by
  induction l using replaceCRLFSpace.induct with
  | case1 => rfl
  | case2 c => rfl
  | case3 c1 c2 rest h12 ih =>
    obtain ⟨rfl, rfl⟩ := h12
    rw [replaceCRLFSpace, if_pos ⟨rfl, rfl⟩]
    cases rest with
    | nil =>
      rw [List.getLast?_cons_cons, List.getLast?_singleton] at hl
      exact absurd rfl hl
    | cons r rs =>
      rw [List.getLast?_cons_cons, List.getLast?_cons_cons] at hl ⊢
      cases hrc : replaceCRLFSpace (r :: rs) with
      | nil => exact absurd hrc (replaceCRLFSpace_ne_nil (r :: rs) (by simp))
      | cons y ys =>
        rw [List.getLast?_cons_cons, ← hrc]
        exact ih hl
  | case4 c1 c2 rest h12 ih =>
    rw [replaceCRLFSpace, if_neg h12]
    rw [List.getLast?_cons_cons] at hl
    have hrep := replaceCRLFSpace_ne_nil (c2 :: rest) (by simp)
    cases hrc : replaceCRLFSpace (c2 :: rest) with
    | nil => exact absurd hrc hrep
    | cons y ys =>
      rw [List.getLast?_cons_cons, ← hrc, ih hl, List.getLast?_cons_cons]

/-- The head of the trimmed string is not whitespace. -/
theorem goTrimSpace_head (s : List Char) (c : Char)
    (h : (goTrimSpace s).head? = some c) : goIsSpace c = false := by
  have key : ∀ l : List Char, (goTrimRight l).head? = some c → l.head? = some c := by
    intro l hl
    obtain ⟨u, hu⟩ := dropWhile_decomp goIsSpace l.reverse
    have hrev : l = (l.reverse.dropWhile goIsSpace).reverse ++ u.reverse := by
      conv_lhs => rw [← List.reverse_reverse l, hu]
      rw [List.reverse_append]
    cases hd : (l.reverse.dropWhile goIsSpace).reverse with
    | nil => rw [goTrimRight, hd] at hl; simp at hl
    | cons x xs =>
      rw [goTrimRight, hd] at hl
      simp only [List.head?_cons, Option.some.injEq] at hl
      subst hl
      rw [hrev, hd]
      simp
  have h2 : (List.dropWhile goIsSpace s).head? = some c := key _ h
  cases hds : List.dropWhile goIsSpace s with
  | nil => rw [hds] at h2; simp at h2
  | cons x xs =>
    rw [hds] at h2
    simp only [List.head?_cons, Option.some.injEq] at h2
    subst h2
    exact dropWhile_head_not goIsSpace s x xs hds

/-- The last character of the trimmed string is not whitespace. -/
theorem goTrimSpace_getLast (s : List Char) (c : Char)
    (h : (goTrimSpace s).getLast? = some c) : goIsSpace c = false := by
  rw [goTrimSpace, goTrimRight, List.getLast?_reverse] at h
  cases hb : List.dropWhile goIsSpace (List.dropWhile goIsSpace s).reverse with
  | nil => rw [hb] at h; simp at h
  | cons x xs =>
    rw [hb] at h
    simp only [List.head?_cons, Option.some.injEq] at h
    subst h
    exact dropWhile_head_not goIsSpace _ x xs hb

/-- Every output of the sanitizer `safe` is a sane segment. -/
theorem safe_segmentSane (s : List Char) : segmentSane (safe s) := by
  refine ⟨containsCRLF_replaceCRLFSpace _, ?_, ?_⟩
  · intro c hc
    cases ht : goTrimSpace s with
    | nil =>
      rw [safe, ht] at hc
      simp [replaceCRLFSpace] at hc
    | cons x xs =>
      have hx : goIsSpace x = false := goTrimSpace_head s x (by rw [ht]; rfl)
      have hxr : x ≠ '\r' := (not_cr_lf_of_not_space x hx).1
      rw [safe, ht, replaceCRLFSpace_cons_of_ne x xs hxr] at hc
      simp only [List.head?_cons, Option.some.injEq] at hc
      subst hc
      exact hx
  · intro c hc
    have hlast : (goTrimSpace s).getLast? ≠ some '\n' := by
      intro hlf
      exact absurd (goTrimSpace_getLast s '\n' hlf) (by decide)
    rw [safe, replaceCRLFSpace_getLast (goTrimSpace s) hlast] at hc
    exact goTrimSpace_getLast s c hc

/-- A tail of a CR-LF-free string is CR-LF-free. -/
theorem containsCRLF_cons_false (c : Char) (l : List Char)
    (h : containsCRLF (c :: l) = false) : containsCRLF l = false := by
  cases l with
  | nil => rfl
  | cons b r =>
    rw [containsCRLF] at h
    exact (Bool.or_eq_false_iff.mp h).2

/-- A suffix of a CR-LF-free string is CR-LF-free. -/
theorem containsCRLF_suffix :
    ∀ u v : List Char, containsCRLF (u ++ v) = false → containsCRLF v = false := by
  intro u
  induction u with
  | nil => intro v h; exact h
  | cons x u ih =>
    intro v h
    exact ih v (containsCRLF_cons_false x (u ++ v) h)

/-- Appending CR-LF-free strings over a non-CR boundary is CR-LF-free. -/
theorem containsCRLF_append (xs ys : List Char) (hxs : containsCRLF xs = false)
    (hys : containsCRLF ys = false) (hb : xs.getLast? ≠ some '\r') :
    containsCRLF (xs ++ ys) = false := by
  induction xs with
  | nil => exact hys
  | cons x tail ih =>
    cases tail with
    | nil =>
      cases ys with
      | nil => simp [containsCRLF]
      | cons y t =>
        have hx : (x == '\r') = false := by
          simp only [List.getLast?_singleton, ne_eq, Option.some.injEq] at hb
          simp [hb]
        have hyt : containsCRLF (y :: t) = false := hys
        have hstep : containsCRLF (x :: y :: t)
            = ((x == '\r' && y == '\n') || containsCRLF (y :: t)) := rfl
        show containsCRLF (x :: y :: t) = false
        rw [hstep, hx, hyt]
        rfl
    | cons x2 rest =>
      rw [List.getLast?_cons_cons] at hb
      have hx2 : containsCRLF (x2 :: rest) = false :=
        containsCRLF_cons_false x (x2 :: rest) hxs
      have hpair : (x == '\r' && x2 == '\n') = false := by
        have hstep : containsCRLF (x :: x2 :: rest)
            = ((x == '\r' && x2 == '\n') || containsCRLF (x2 :: rest)) := rfl
        rw [hstep] at hxs
        exact (Bool.or_eq_false_iff.mp hxs).1
      have htail : containsCRLF ((x2 :: rest) ++ ys) = false := ih hx2 hb
      have hstep2 : containsCRLF ((x :: x2 :: rest) ++ ys)
          = ((x == '\r' && x2 == '\n') || containsCRLF ((x2 :: rest) ++ ys)) := rfl
      rw [hstep2, hpair, htail]
      rfl

/-- The coerced link segment is sane whenever its input segment is. -/
theorem coerced_segmentSane (l : List Char) (hl : segmentSane l) :
    segmentSane ("https://".data ++ trimLeftSlash l) := by
  obtain ⟨hcrlf, hhead, hlast⟩ := hl
  obtain ⟨u, hu⟩ := dropWhile_decomp (fun c => c == '/') l
  have hys : containsCRLF (trimLeftSlash l) = false := by
    rw [trimLeftSlash]
    exact containsCRLF_suffix u _ (by rw [← hu]; exact hcrlf)
  refine ⟨?_, ?_, ?_⟩
  · refine containsCRLF_append _ _ (by decide) hys (by decide)
  · intro c hc
    have : (("https://".data ++ trimLeftSlash l)).head? = some 'h' := rfl
    rw [this] at hc
    cases hc
    decide
  · intro c hc
    cases hys2 : trimLeftSlash l with
    | nil =>
      rw [hys2, List.append_nil] at hc
      have : ("https://".data).getLast? = some '/' := rfl
      rw [this] at hc
      cases hc
      decide
    | cons y ys =>
      rw [List.getLast?_append_of_ne_nil _ (by rw [hys2]; simp)] at hc
      rw [← trimLeftSlash] at hu
      rw [hu, List.getLast?_append_of_ne_nil _ (by rw [hys2]; simp)] at hlast
      exact hlast c hc

/-- The link segment composed into the invite bodies is a sane segment
for every link input. -/
theorem coerceLink_safe_segmentSane (link : List Char) :
    segmentSane (coerceLink (safe link)) := by
  rw [coerceLink]
  by_cases hs : startsWithChars (safe link) "http://".data
      || startsWithChars (safe link) "https://".data
  · rw [if_pos hs]; exact safe_segmentSane link
  · rw [if_neg hs]
    exact coerced_segmentSane (safe link) (safe_segmentSane link)

/-- The replacer touches only CR-LF pairs: on a string holding none it is
the identity, so a lone CR or LF passes through it unchanged. -/
theorem replaceCRLFSpace_of_not_contains (l : List Char)
    (h : containsCRLF l = false) : replaceCRLFSpace l = l := by
  induction l using replaceCRLFSpace.induct with
  | case1 => rfl
  | case2 c => rfl
  | case3 c1 c2 rest h12 ih =>
    obtain ⟨rfl, rfl⟩ := h12
    have e : containsCRLF ('\r' :: '\n' :: rest)
        = ((('\r' : Char) == '\r' && ('\n' : Char) == '\n')
          || containsCRLF ('\n' :: rest)) := rfl
    rw [e] at h
    simp at h
  | case4 c1 c2 rest h12 ih =>
    have e : containsCRLF (c1 :: c2 :: rest)
        = ((c1 == '\r' && c2 == '\n') || containsCRLF (c2 :: rest)) := rfl
    rw [e] at h
    rw [replaceCRLFSpace, if_neg h12, ih (Bool.or_eq_false_iff.mp h).2]

/-- C2 counterexample: the name input `a<CR><LF>b<LF>c` carries an
embedded carriage-return/line-feed sequence; its sanitized segment is
`a b<LF>c`, which still contains a raw LF, and the composed plain-text
and HTML bodies interpolate that segment verbatim — so the claim that
the interpolated segments contain no raw CR or LF fails. A second input
shows a raw CR surviving as well. -/
theorem C2_counterexample :
    safe "a\r\nb\nc".data = "a b\nc".data
    ∧ '\n' ∈ safe "a\r\nb\nc".data
    ∧ safe "x\r\r\ny".data = "x\r y".data
    ∧ '\r' ∈ safe "x\r\r\ny".data
    ∧ inviteFields "a\r\nb\nc".data "Admin".data "example.com".data
        = ⟨"a b\nc".data, "Admin".data, "https://example.com".data⟩
    ∧ invitePlainBody (inviteFields "a\r\nb\nc".data "Admin".data "example.com".data)
        = "Hi ".data ++ "a b\nc".data ++
          ",\n\nYou have been invited to join Horizon Hotel as a ".data ++
          "Admin".data ++
          ".\nPlease set your password using the link below:\n".data ++
          "https://example.com".data ++
          "\n\nIf you did not expect this invitation, you can ignore this email.\n".data
    ∧ inviteHtmlBody (inviteFields "a\r\nb\nc".data "Admin".data "example.com".data)
        = inviteHtmlBody ⟨"a b\nc".data, "Admin".data, "https://example.com".data⟩ := by
  exact ⟨rfl, by decide, rfl, by decide, rfl, rfl, rfl⟩

/-- C2 amended: every interpolated segment of the composed invite bodies —
the sanitized name, the sanitized role and the coerced sanitized link —
is trimmed of surrounding whitespace and contains no embedded CR-LF pair,
and the composed plain-text and HTML bodies interpolate exactly those
segments between fixed template text; the sanitizer replaces only `\r\n`
pairs, so on an input whose trimmed form holds no such pair it performs
nothing but the trim — in particular a lone CR or LF is preserved into
the bodies rather than stripped. -/
theorem C2_sanitized_segments (name role link : List Char) :
    (segmentSane (safe name) ∧ segmentSane (safe role)
      ∧ segmentSane (coerceLink (safe link)))
    ∧ invitePlainBody (inviteFields name role link)
        = "Hi ".data ++ safe name ++
          ",\n\nYou have been invited to join Horizon Hotel as a ".data ++
          safe role ++
          ".\nPlease set your password using the link below:\n".data ++
          coerceLink (safe link) ++
          "\n\nIf you did not expect this invitation, you can ignore this email.\n".data
    ∧ inviteHtmlBody (inviteFields name role link)
        = inviteHtmlBody ⟨safe name, safe role, coerceLink (safe link)⟩
    ∧ (containsCRLF (goTrimSpace name) = false → safe name = goTrimSpace name) :=
  ⟨⟨safe_segmentSane name, safe_segmentSane role, coerceLink_safe_segmentSane link⟩,
    rfl, rfl, fun h => replaceCRLFSpace_of_not_contains _ h⟩

/-! ## Dispatcher theorems -/

/-- Unpacking the SMTP completeness flag into its four fields. -/
theorem smtpConfigComplete_true_iff (env : Env) :
    smtpConfigComplete env = true ↔
      goTrimSpace env.SMTP_HOST ≠ [] ∧ goTrimSpace env.SMTP_PORT ≠ [] ∧
      goTrimSpace env.SMTP_USERNAME ≠ [] ∧ goTrimSpace env.SMTP_PASSWORD ≠ [] := by
  simp [smtpConfigComplete, List.isEmpty_iff, Bool.and_eq_true, and_assoc]

/-- C3 counterexample: with no transport configured at all, a send with an
empty recipient list reports mock success instead of failing with the
empty-recipients error, refuting the claim's "regardless of which
transport configuration is present or absent". -/
theorem C3_counterexample :
    sendResendEmail envNone [] "s".data "h".data "t".data [] []
      = Except.ok SendAction.mock
    ∧ sendResendEmail envNone [] "s".data "h".data "t".data [] []
      ≠ Except.error SendError.emptyRecipients := by
  exact ⟨rfl, by decide⟩

/-- C3 amended: whenever a transport is configured — the hosted-API
credential present or the full SMTP configuration present — a send with an
empty recipient list fails with the empty-recipients error before any
network action; with nothing configured the dispatcher instead reports
mock success. -/
theorem C3_empty_recipients (env : Env)
    (subject htmlBody textBody fromEmail fromName : List Char)
    (h : goTrimSpace env.RESEND_API_KEY ≠ [] ∨ smtpConfigComplete env = true) :
    sendResendEmail env [] subject htmlBody textBody fromEmail fromName
      = Except.error SendError.emptyRecipients := by
  by_cases hk : goTrimSpace env.RESEND_API_KEY = []
  · rcases h with h | h
    · exact absurd hk h
    · obtain ⟨h1, h2, h3, h4⟩ := (smtpConfigComplete_true_iff env).mp h
      simp only [sendResendEmail]
      rw [if_pos hk]
      simp only [sendSMTPEmail]
      rw [if_neg (by simp [h1, h2, h3, h4])]
      simp
  · simp only [sendResendEmail]
    rw [if_neg hk]
    simp

/-- Closed instance of C3's amended theorem: the hosted-API transport is
configured and the empty recipient list is rejected. -/
theorem C3_empty_recipients_witness :
    sendResendEmail envApiOnly [] "s".data "h".data "t".data [] []
      = Except.error SendError.emptyRecipients :=
  C3_empty_recipients envApiOnly "s".data "h".data "t".data [] []
    (Or.inl (by decide))

/-- C6: with neither the hosted-API credential nor the complete SMTP
configuration present, every send is a successful no-op mock delivery:
the result is the mock action, so no network request and no sender
resolution takes place, whatever the message or sender arguments. -/
theorem C6_mock_delivery (env : Env) (toAddrs : List (List Char))
    (subject htmlBody textBody fromEmail fromName : List Char)
    (hkey : goTrimSpace env.RESEND_API_KEY = [])
    (hsmtp : smtpConfigComplete env = false) :
    sendResendEmail env toAddrs subject htmlBody textBody fromEmail fromName
      = Except.ok SendAction.mock := by
  have hmiss : goTrimSpace env.SMTP_HOST = [] ∨ goTrimSpace env.SMTP_PORT = [] ∨
      goTrimSpace env.SMTP_USERNAME = [] ∨ goTrimSpace env.SMTP_PASSWORD = [] := by
    by_contra hc
    push_neg at hc
    rw [(smtpConfigComplete_true_iff env).mpr ⟨hc.1, hc.2.1, hc.2.2.1, hc.2.2.2⟩] at hsmtp
    cases hsmtp
  simp only [sendResendEmail]
  rw [if_pos hkey]
  simp only [sendSMTPEmail]
  rw [if_pos hmiss]

/-- Closed instance of C6's theorem on the empty environment. -/
theorem C6_mock_delivery_witness :
    sendResendEmail envNone ["guest@example.com".data] "s".data "h".data "t".data [] []
      = Except.ok SendAction.mock :=
  C6_mock_delivery envNone ["guest@example.com".data] "s".data "h".data "t".data [] []
    (by decide) (by decide)

/-- C4: when the configured allow-list is non-empty and the resolved
sender address is not a member of it under case-insensitive comparison,
the resolver fails with the sender-not-allowed error. -/
theorem C4_sender_not_allowed (env : Env) (requested : List Char)
    (hval : resolvedValue env requested ≠ [])
    (hne : parseAllowedFromEmails env ≠ [])
    (hmem : (parseAllowedFromEmails env).contains
      (goToLower (resolvedValue env requested)) = false) :
    resolveFromEmail env requested
      = Except.error (SendError.senderNotAllowed (resolvedValue env requested)) := by
  simp only [resolveFromEmail]
  rw [if_neg hval, if_pos (List.length_pos.mpr hne), if_neg (by simpa using hmem)]

/-- Closed instance of C4's theorem: an explicit allow-list rejects an
address outside it. -/
theorem C4_sender_not_allowed_witness :
    resolveFromEmail envAllowList "other@example.com".data
      = Except.error (SendError.senderNotAllowed "other@example.com".data) := by
  have h := C4_sender_not_allowed envAllowList "other@example.com".data
    (by decide) (by decide) (by decide)
  have e : resolvedValue envAllowList "other@example.com".data
      = "other@example.com".data := by decide
  rw [e] at h
  exact h

/-- C5 counterexample: with the allow-list unconfigured and no default
sender configured either, an arbitrary non-default address resolves
successfully, refuting the claim that only the default is permitted. -/
theorem C5_counterexample :
    resolveFromEmail envNone "evil@example.com".data
      = Except.ok "evil@example.com".data
    ∧ "evil@example.com".data ≠ resendDefaultFrom envNone := by
  exact ⟨rfl, by decide⟩

/-- Trimming is idempotent on a string whose ends are not whitespace. -/
theorem goTrimSpace_idem_of (l : List Char)
    (hh : ∀ c, l.head? = some c → goIsSpace c = false)
    (hl : ∀ c, l.getLast? = some c → goIsSpace c = false) :
    goTrimSpace l = l := by
  have h1 : List.dropWhile goIsSpace l = l := by
    cases l with
    | nil => rfl
    | cons x xs => exact List.dropWhile_cons_of_neg (by simp [hh x rfl])
  have h2 : List.dropWhile goIsSpace l.reverse = l.reverse := by
    cases hr : l.reverse with
    | nil => rfl
    | cons x xs =>
      have hx : l.getLast? = some x := by
        rw [← List.head?_reverse, hr]
        rfl
      rw [← hr]
      cases hr2 : l.reverse with
      | nil => rfl
      | cons y ys =>
        have : y = x := by rw [hr2] at hr; cases hr; rfl
        subst this
        exact List.dropWhile_cons_of_neg (by simp [hl y hx])
  rw [goTrimSpace, h1, goTrimRight, h2, List.reverse_reverse]

/-- Applying `goTrimSpace` twice equals applying it once. -/
theorem goTrimSpace_goTrimSpace (s : List Char) :
    goTrimSpace (goTrimSpace s) = goTrimSpace s :=
  goTrimSpace_idem_of _ (goTrimSpace_head s) (goTrimSpace_getLast s)

/-- The default sender is already trimmed. -/
theorem resendDefaultFrom_trimmed (env : Env) :
    goTrimSpace (resendDefaultFrom env) = resendDefaultFrom env := by
  simp only [resendDefaultFrom]
  by_cases h : goTrimSpace env.RESEND_FROM_EMAIL = []
  · rw [if_pos h]
    exact goTrimSpace_goTrimSpace _
  · rw [if_neg h]
    exact goTrimSpace_goTrimSpace _

/-- C5 amended: with no explicit allow-list entries, when a default sender
address is configured only that address is permitted case-insensitively —
any other non-blank request fails with sender-not-allowed; when no default
is configured either, the effective allow-list is empty and any non-blank
request resolves successfully. -/
theorem C5_default_only (env : Env) (requested : List Char)
    (hexp : explicitAllowEntries env = [])
    (hreq : goTrimSpace requested ≠ []) :
    (resendDefaultFrom env ≠ [] →
      goToLower (goTrimSpace requested) ≠ goToLower (resendDefaultFrom env) →
      resolveFromEmail env requested
        = Except.error (SendError.senderNotAllowed (goTrimSpace requested)))
    ∧ (resendDefaultFrom env = [] →
      resolveFromEmail env requested = Except.ok (goTrimSpace requested)) := by
  have hrv : resolvedValue env requested = goTrimSpace requested := by
    simp only [resolvedValue]
    rw [if_neg hreq]
  have hparse : parseAllowedFromEmails env
      = (if goToLower (goTrimSpace (resendDefaultFrom env)) = [] then []
         else [goToLower (goTrimSpace (resendDefaultFrom env))]) := by
    simp only [parseAllowedFromEmails]
    rw [hexp, if_pos rfl]
  constructor
  · intro hd hne
    have hdl : goToLower (goTrimSpace (resendDefaultFrom env)) ≠ [] := by
      rw [resendDefaultFrom_trimmed]
      simp only [goToLower, ne_eq, List.map_eq_nil_iff]
      exact hd
    have hparse1 : parseAllowedFromEmails env
        = [goToLower (resendDefaultFrom env)] := by
      rw [hparse, if_neg hdl, resendDefaultFrom_trimmed]
    simp only [resolveFromEmail]
    rw [hrv, if_neg hreq, hparse1]
    rw [if_pos (by simp), if_neg (by simp [List.contains]; exact hne)]
  · intro hd
    have hparse0 : parseAllowedFromEmails env = [] := by
      rw [hparse, if_pos (by rw [hd]; rfl)]
    simp only [resolveFromEmail]
    rw [hrv, if_neg hreq, hparse0]
    rw [if_neg (by simp)]

/-- Closed instance of C5's amended theorem: a configured default sender
rejects a different address. -/
theorem C5_default_only_witness :
    resolveFromEmail envDefaultOnly "other@example.com".data
      = Except.error (SendError.senderNotAllowed "other@example.com".data) := by
  have h := (C5_default_only envDefaultOnly "other@example.com".data
      (by decide) (by decide)).1 (by decide) (by decide)
  have e : goTrimSpace "other@example.com".data = "other@example.com".data := by decide
  rw [e] at h
  exact h

/-- C7: over the SMTP path with full configuration and a non-empty
recipient list: a sender equal to the SMTP username up to letter case
passes the check and the message is handed to the mail client with the
username as envelope sender; a sender differing in substance fails with
the sender-mismatch error; a blank sender falls back to the SMTP
username. -/
theorem C7_smtp_sender_check (env : Env) (toAddrs : List (List Char))
    (subject htmlBody textBody fromEmail fromName : List Char)
    (hcfg : smtpConfigComplete env = true) (hto : toAddrs ≠ []) :
    (goTrimSpace fromEmail ≠ [] →
      goToLower (goTrimSpace fromEmail) = goToLower (goTrimSpace env.SMTP_USERNAME) →
      ∃ msg, sendSMTPEmail env toAddrs subject htmlBody textBody fromEmail fromName
        = Except.ok (SendAction.smtpRequest
            (goTrimSpace env.SMTP_HOST ++ ":".data ++ goTrimSpace env.SMTP_PORT)
            (goTrimSpace env.SMTP_USERNAME) toAddrs msg))
    ∧ (goTrimSpace fromEmail ≠ [] →
      goToLower (goTrimSpace fromEmail) ≠ goToLower (goTrimSpace env.SMTP_USERNAME) →
      sendSMTPEmail env toAddrs subject htmlBody textBody fromEmail fromName
        = Except.error (SendError.senderMismatch (goTrimSpace fromEmail)))
    ∧ (goTrimSpace fromEmail = [] →
      ∃ msg, sendSMTPEmail env toAddrs subject htmlBody textBody fromEmail fromName
        = Except.ok (SendAction.smtpRequest
            (goTrimSpace env.SMTP_HOST ++ ":".data ++ goTrimSpace env.SMTP_PORT)
            (goTrimSpace env.SMTP_USERNAME) toAddrs msg)) := by
  obtain ⟨h1, h2, h3, h4⟩ := (smtpConfigComplete_true_iff env).mp hcfg
  refine ⟨?_, ?_, ?_⟩
  · intro hne heq
    simp only [sendSMTPEmail]
    rw [if_neg (by simp [h1, h2, h3, h4]), if_neg hto, if_neg hne,
      if_neg (not_not_intro heq)]
    exact ⟨_, rfl⟩
  · intro hne hmis
    simp only [sendSMTPEmail]
    rw [if_neg (by simp [h1, h2, h3, h4]), if_neg hto, if_neg hne, if_pos hmis]
  · intro hblank
    simp only [sendSMTPEmail]
    rw [if_neg (by simp [h1, h2, h3, h4]), if_neg hto, if_pos hblank,
      if_neg (not_not_intro rfl)]
    exact ⟨_, rfl⟩

/-- Closed instance of C7's theorem: a sender differing from the SMTP
username only in case is accepted and submitted under the username. -/
theorem C7_smtp_sender_check_witness :
    ∃ msg, sendSMTPEmail envSmtp ["guest@example.com".data] "s".data "h".data
        "t".data "sender@EXAMPLE.com".data []
      = Except.ok (SendAction.smtpRequest
          (goTrimSpace envSmtp.SMTP_HOST ++ ":".data ++ goTrimSpace envSmtp.SMTP_PORT)
          (goTrimSpace envSmtp.SMTP_USERNAME) ["guest@example.com".data] msg) :=
  (C7_smtp_sender_check envSmtp ["guest@example.com".data] "s".data "h".data
      "t".data "sender@EXAMPLE.com".data [] (by decide) (by decide)).1
    (by decide) (by decide)

/-! ## Room-controller lemmas -/

/-- Payload lookup after a Go map `delete`. -/
theorem lookupKey_removeKey (k col : List Char) :
    ∀ m : List (List Char × List Char),
      lookupKey (removeKey m k) col = if col = k then none else lookupKey m col := by
  intro m
  induction m with
  | nil => by_cases hc : col = k <;> simp [removeKey, lookupKey, hc]
  | cons e rest ih =>
    rw [removeKey]
    by_cases he : e.1 = k
    · rw [if_pos he, ih]
      by_cases hc : col = k
      · rw [if_pos hc, if_pos hc]
      · rw [if_neg hc, if_neg hc, lookupKey,
          if_neg (fun h : e.1 = col => hc (by rw [← h]; exact he))]
    · rw [if_neg he, lookupKey]
      by_cases hec : e.1 = col
      · have hck : ¬ col = k := fun hck => he (by rw [hec, hck])
        rw [if_pos hec, if_neg hck, lookupKey, if_pos hec]
      · rw [if_neg hec, ih]
        by_cases hc : col = k
        · rw [if_pos hc, if_pos hc]
        · rw [if_neg hc, if_neg hc, lookupKey, if_neg hec]

/-- Payload lookup distributes over append, first hit wins. -/
theorem lookupKey_append (col : List Char) :
    ∀ xs ys : List (List Char × List Char),
      lookupKey (xs ++ ys) col
        = match lookupKey xs col with
          | some v => some v
          | none => lookupKey ys col := by
  intro xs ys
  induction xs with
  | nil => rfl
  | cons e rest ih =>
    rw [List.cons_append, lookupKey, lookupKey]
    by_cases he : e.1 = col
    · rw [if_pos he, if_pos he]
    · rw [if_neg he, if_neg he, ih]

/-- Payload lookup after a Go map assignment. -/
theorem lookupKey_setKey (m : List (List Char × List Char)) (k v col : List Char) :
    lookupKey (setKey m k v) col = if col = k then some v else lookupKey m col := by
  rw [setKey, lookupKey_append, lookupKey_removeKey]
  by_cases hc : col = k
  · rw [if_pos hc, if_pos hc]
    simp [lookupKey, hc]
  · rw [if_neg hc, if_neg hc]
    cases h : lookupKey m col with
    | some v2 => rfl
    | none =>
      simp only [lookupKey]
      rw [if_neg (fun hkc : k = col => hc (by rw [hkc]))]

/-- A key absent from a payload stays absent after a `delete`. -/
theorem lookupKey_removeKey_none (m : List (List Char × List Char)) (k col : List Char)
    (h : lookupKey m col = none) : lookupKey (removeKey m k) col = none := by
  rw [lookupKey_removeKey]
  by_cases hc : col = k
  · rw [if_pos hc]
  · rw [if_neg hc]; exact h

/-- The deleted key is absent after a `delete`. -/
theorem lookupKey_removeKey_self (m : List (List Char × List Char)) (k col : List Char)
    (h : col = k) : lookupKey (removeKey m k) col = none := by
  rw [lookupKey_removeKey, if_pos h]

/-- A key other than the assigned one stays absent after an assignment. -/
theorem lookupKey_setKey_none (m : List (List Char × List Char)) (k v col : List Char)
    (hc : col ≠ k) (h : lookupKey m col = none) :
    lookupKey (setKey m k v) col = none := by
  rw [lookupKey_setKey, if_neg hc]
  exact h

/-- After the scrub, a key is absent when it is one of the four protected
keys, or was absent from the raw payload — for every key other than
`access_code`. -/
theorem lookupKey_scrub_none (raw : List (List Char × List Char)) (col : List Char)
    (hac : col ≠ "access_code".data)
    (h : lookupKey raw col = none ∨ col = "id".data ∨ col = "created_at".data
      ∨ col = "updated_at".data ∨ col = "deleted_at".data) :
    lookupKey (scrubPayload raw) col = none := by
  have hd1 : lookupKey (removeKey (removeKey (removeKey (removeKey raw "id".data)
      "created_at".data) "updated_at".data) "deleted_at".data) col = none := by
    rcases h with h | h | h | h | h
    · exact lookupKey_removeKey_none _ _ _ (lookupKey_removeKey_none _ _ _
        (lookupKey_removeKey_none _ _ _ (lookupKey_removeKey_none _ _ _ h)))
    · exact lookupKey_removeKey_none _ _ _ (lookupKey_removeKey_none _ _ _
        (lookupKey_removeKey_none _ _ _ (lookupKey_removeKey_self _ _ _ h)))
    · exact lookupKey_removeKey_none _ _ _ (lookupKey_removeKey_none _ _ _
        (lookupKey_removeKey_self _ _ _ h))
    · exact lookupKey_removeKey_none _ _ _ (lookupKey_removeKey_self _ _ _ h)
    · exact lookupKey_removeKey_self _ _ _ h
  simp only [scrubPayload]
  cases hl : lookupKey (removeKey (removeKey (removeKey (removeKey raw "id".data)
      "created_at".data) "updated_at".data) "deleted_at".data) "accessCode".data with
  | none => exact hd1
  | some v =>
    by_cases hcc : col = "accessCode".data
    · exact lookupKey_removeKey_self _ _ _ hcc
    · exact lookupKey_removeKey_none _ _ _ (lookupKey_setKey_none _ _ _ _ hac hd1)

/-- The scrub does not touch the `status` key. -/
theorem lookupKey_scrub_status (raw : List (List Char × List Char)) :
    lookupKey (scrubPayload raw) "status".data = lookupKey raw "status".data := by
  have e1 : lookupKey (removeKey (removeKey (removeKey (removeKey raw "id".data)
      "created_at".data) "updated_at".data) "deleted_at".data) "status".data
      = lookupKey raw "status".data := by
    rw [lookupKey_removeKey, if_neg (by decide), lookupKey_removeKey,
      if_neg (by decide), lookupKey_removeKey, if_neg (by decide),
      lookupKey_removeKey, if_neg (by decide)]
  simp only [scrubPayload]
  cases hl : lookupKey (removeKey (removeKey (removeKey (removeKey raw "id".data)
      "created_at".data) "updated_at".data) "deleted_at".data) "accessCode".data with
  | none => exact e1
  | some v =>
    show lookupKey (removeKey (setKey _ "access_code".data v) "accessCode".data)
      "status".data = lookupKey raw "status".data
    rw [lookupKey_removeKey, if_neg (by decide), lookupKey_setKey,
      if_neg (by decide)]
    exact e1

/-- Reduction of the update preparation when the payload has no status. -/
theorem updateRoomPrep_status_none (existing : Room)
    (raw : List (List Char × List Char)) (gen : CodeGenResult)
    (hs : lookupKey (scrubPayload raw) "status".data = none) :
    updateRoomPrep existing raw gen = HandlerOutcome.ok (scrubPayload raw) := by
  simp only [updateRoomPrep]
  rw [hs]

/-- Reduction of the update preparation when the payload has a status. -/
theorem updateRoomPrep_status_some (existing : Room)
    (raw : List (List Char × List Char)) (gen : CodeGenResult) (s : List Char)
    (hs : lookupKey (scrubPayload raw) "status".data = some s) :
    updateRoomPrep existing raw gen =
      if (goEqualFold existing.status "Cleaning".data
          && goEqualFold s "Available".data) = true then
        (match gen with
          | CodeGenResult.ok code =>
            HandlerOutcome.ok (setKey (scrubPayload raw) "access_code".data code)
          | CodeGenResult.exhausted => HandlerOutcome.serverError)
      else HandlerOutcome.ok (scrubPayload raw) := by
  simp only [updateRoomPrep]
  rw [hs]

/-- C9: an access code is generated on room creation exactly when the
supplied code is blank after trimming — blank means the generated code is
saved, non-blank means the room is kept as supplied whatever the
generator would do — and on room update exactly when the stored status is
Cleaning and the requested status is Available under case-insensitive
comparison, in which case the generated code is written into the applied
payload under `access_code`; when the trigger does not fire the prepared
payload is independent of the generator. -/
theorem C9_code_generation_triggers (room existing : Room)
    (raw : List (List Char × List Char)) (c : List Char) (g g2 : CodeGenResult) :
    (goTrimSpace room.accessCode = [] →
      createRoomAccessCode room (CodeGenResult.ok c)
        = HandlerOutcome.ok { room with accessCode := c })
    ∧ (goTrimSpace room.accessCode ≠ [] →
      createRoomAccessCode room g = HandlerOutcome.ok room)
    ∧ (statusTriggered existing raw = true →
      ∃ d, updateRoomPrep existing raw (CodeGenResult.ok c) = HandlerOutcome.ok d
        ∧ lookupKey d "access_code".data = some c)
    ∧ (statusTriggered existing raw = false →
      updateRoomPrep existing raw g = updateRoomPrep existing raw g2
      ∧ ∃ d, updateRoomPrep existing raw g = HandlerOutcome.ok d) := by
  refine ⟨?_, ?_, ?_, ?_⟩
  · intro h
    simp only [createRoomAccessCode]
    rw [if_pos h]
  · intro h
    simp only [createRoomAccessCode]
    rw [if_neg h]
  · intro h
    simp only [statusTriggered] at h
    cases hs : lookupKey raw "status".data with
    | none => rw [hs] at h; cases h
    | some s =>
      rw [hs] at h
      have h2 : (goEqualFold existing.status "Cleaning".data
          && goEqualFold s "Available".data) = true := h
      have hscrub : lookupKey (scrubPayload raw) "status".data = some s := by
        rw [lookupKey_scrub_status, hs]
      rw [updateRoomPrep_status_some existing raw _ s hscrub, if_pos h2]
      exact ⟨_, rfl, by rw [lookupKey_setKey, if_pos rfl]⟩
  · intro h
    simp only [statusTriggered] at h
    cases hs : lookupKey raw "status".data with
    | none =>
      have hscrub : lookupKey (scrubPayload raw) "status".data = none := by
        rw [lookupKey_scrub_status, hs]
      rw [updateRoomPrep_status_none existing raw g hscrub,
        updateRoomPrep_status_none existing raw g2 hscrub]
      exact ⟨rfl, _, rfl⟩
    | some s =>
      rw [hs] at h
      have h2 : (goEqualFold existing.status "Cleaning".data
          && goEqualFold s "Available".data) = false := h
      have hnot : ¬ (goEqualFold existing.status "Cleaning".data
          && goEqualFold s "Available".data) = true := by simp [h2]
      have hscrub : lookupKey (scrubPayload raw) "status".data = some s := by
        rw [lookupKey_scrub_status, hs]
      rw [updateRoomPrep_status_some existing raw g s hscrub,
        updateRoomPrep_status_some existing raw g2 s hscrub, if_neg hnot, if_neg hnot]
      exact ⟨rfl, _, rfl⟩

/-- C10 counterexample: updating a room stored in Cleaning with the
payload naming only `status: Available` writes a fresh `access_code`
column the payload does not name, refuting "all other columns not named
in the payload are left unchanged". -/
theorem C10_counterexample :
    lookupKey payloadAvailable "access_code".data = none
    ∧ updateRoomPrep roomCleaning payloadAvailable (CodeGenResult.ok "123456".data)
      = HandlerOutcome.ok (("status".data, "Available".data)
          :: ("access_code".data, "123456".data) :: [])
    ∧ applyUpdates rowStored (("status".data, "Available".data)
          :: ("access_code".data, "123456".data) :: []) "access_code".data
      ≠ rowStored "access_code".data := by
  exact ⟨rfl, rfl, by decide⟩

/-- C10 amended: the keys id, created_at, updated_at and deleted_at are
removed from every update payload before it is applied, so the applied
update never modifies those columns, whatever the payload contains; every
other column not named in the payload is left unchanged, with the single
exception of `access_code`, which the controller itself may write (from
the `accessCode` alias or the Cleaning-to-Available regeneration
trigger). -/
theorem C10_update_frame (existing : Room) (raw : List (List Char × List Char))
    (g : CodeGenResult) (d : List (List Char × List Char))
    (row : List Char → List Char)
    (hok : updateRoomPrep existing raw g = HandlerOutcome.ok d) :
    applyUpdates row d "id".data = row "id".data
    ∧ applyUpdates row d "created_at".data = row "created_at".data
    ∧ applyUpdates row d "updated_at".data = row "updated_at".data
    ∧ applyUpdates row d "deleted_at".data = row "deleted_at".data
    ∧ ∀ col, lookupKey raw col = none → col ≠ "access_code".data →
        applyUpdates row d col = row col := by
  have hshape : d = scrubPayload raw
      ∨ ∃ cd, d = setKey (scrubPayload raw) "access_code".data cd := by
    cases hscrub : lookupKey (scrubPayload raw) "status".data with
    | none =>
      rw [updateRoomPrep_status_none existing raw g hscrub] at hok
      cases hok
      exact Or.inl rfl
    | some s =>
      rw [updateRoomPrep_status_some existing raw g s hscrub] at hok
      by_cases hcond : (goEqualFold existing.status "Cleaning".data
          && goEqualFold s "Available".data) = true
      · rw [if_pos hcond] at hok
        cases g with
        | ok code =>
          cases hok
          exact Or.inr ⟨code, rfl⟩
        | exhausted => cases hok
      · rw [if_neg hcond] at hok
        cases hok
        exact Or.inl rfl
  have hcol : ∀ col, col ≠ "access_code".data →
      (lookupKey raw col = none ∨ col = "id".data ∨ col = "created_at".data
        ∨ col = "updated_at".data ∨ col = "deleted_at".data) →
      lookupKey d col = none := by
    intro col hac h
    rcases hshape with rfl | ⟨cd, rfl⟩
    · exact lookupKey_scrub_none raw col hac h
    · exact lookupKey_setKey_none _ _ _ _ hac (lookupKey_scrub_none raw col hac h)
  have happ : ∀ col, lookupKey d col = none → applyUpdates row d col = row col := by
    intro col hnone
    simp only [applyUpdates]
    rw [hnone]
  refine ⟨?_, ?_, ?_, ?_, ?_⟩
  · exact happ _ (hcol _ (by decide) (Or.inr (Or.inl rfl)))
  · exact happ _ (hcol _ (by decide) (Or.inr (Or.inr (Or.inl rfl))))
  · exact happ _ (hcol _ (by decide) (Or.inr (Or.inr (Or.inr (Or.inl rfl)))))
  · exact happ _ (hcol _ (by decide) (Or.inr (Or.inr (Or.inr (Or.inr rfl)))))
  · intro col hraw hac
    exact happ _ (hcol _ hac (Or.inl hraw))

/-- Closed instance of C10's amended theorem: a status-only update leaves
the protected updated_at column unchanged. -/
theorem C10_update_frame_witness :
    applyUpdates rowStored (("status".data, "Available".data)
        :: ("access_code".data, "123456".data) :: []) "updated_at".data
      = rowStored "updated_at".data :=
  (C10_update_frame roomCleaning payloadAvailable (CodeGenResult.ok "123456".data)
      (("status".data, "Available".data) :: ("access_code".data, "123456".data) :: [])
      rowStored rfl).2.2.1

end Hotel
